import Mathlib

/-!
Verification development for the polykit repository (open2c/polykit).

The repository is a thin visualization layer.  We give a shallow embedding of
the three source functions carrying logic of their own:

* `rasterize` and `voxels_to_pixels_RGB` from `polykit/renderers/viewers.py`
  (voxel binning, Gaussian smoothing dispatch, 2D projection and colormap
  lookup);
* `chromosome_viewer` from the same file (random colors, colormap
  registration with a swallowed ValueError);
* `Fresnel._fresnel` from `polykit/renderers/backends.py` (scene
  construction with color-shape branching and the unbound-particle path).

Real numbers are modelled by rationals (the numpy computations involved are
exact field operations and comparisons).  Calls into external libraries with
no logic relevant to the claims (scipy's gaussian_filter, matplotlib
colormaps, fresnel's sRGB conversion) are parameters of the embedding, so
every theorem quantifies over their behavior.  Numpy error behavior that the
claims depend on (bincount length, reshape failure, in-place true_divide on
an integer array, boolean-mask indexing) is modelled explicitly with
`Except`/`Option` results.
-/

namespace Polykit

/-- A 3D point, `(x, y, z)`. -/
abbrev Vec3 : Type := ℚ × ℚ × ℚ

/-- Truncation toward zero: the behavior of Python `int()` on a number. -/
def intTrunc (q : ℚ) : ℤ := if 0 ≤ q then ⌊q⌋ else ⌈q⌉

/-- Source line `n_voxels = int(box_size / (resolution/length_unit))`
(viewers.py line 102).  The value is nonnegative for the positive
parameters the function documents. -/
def nVoxels (box_size resolution length_unit : ℚ) : ℕ :=
  (intTrunc (box_size / (resolution / length_unit))).toNat

/-- The j-th element of `bins = np.linspace(-box_size/2, box_size/2, n+1)`
(viewers.py line 103): the edges of `n` equal intervals covering
`[-box_size/2, box_size/2]`. -/
def binEdge (L : ℚ) (n j : ℕ) : ℚ := -L / 2 + j * (L / n)

/-- Model of `np.digitize(x, bins)` for the increasing edge list `bins`
(default `right=False`): the number of bin edges that are `≤ x`. -/
def digitize (L : ℚ) (n : ℕ) (x : ℚ) : ℕ :=
  (List.range (n + 1)).countP (fun j => decide (binEdge L n j ≤ x))

/-- Source line `np.digitize(positions[:,0], bins) - 1` at one point (viewers.py line 105). -/
def digX (L : ℚ) (n : ℕ) (p : Vec3) : ℤ := (digitize L n p.1 : ℤ) - 1

/-- Source line `np.digitize(positions[:,1], bins) - 1` at one point (viewers.py line 106). -/
def digY (L : ℚ) (n : ℕ) (p : Vec3) : ℤ := (digitize L n p.2.1 : ℤ) - 1

/-- Source line `np.digitize(positions[:,2], bins) - 1` at one point (viewers.py line 107). -/
def digZ (L : ℚ) (n : ℕ) (p : Vec3) : ℤ := (digitize L n p.2.2 : ℤ) - 1

/-- Source line `digitized = digitized_x + digitized_y*n_voxels + digitized_z*n_voxels**2`
(viewers.py line 109) at one point. -/
def flatDig (L : ℚ) (n : ℕ) (p : Vec3) : ℤ :=
  digX L n p + digY L n p * n + digZ L n p * (n : ℤ) ^ 2

/-- Length of `np.bincount(ds, minlength)`: `max(minlength, max(ds)+1)`,
and `minlength` for an empty input. -/
def bincountLen (minlength : ℕ) (ds : List ℕ) : ℕ :=
  ds.foldr (fun d acc => max (d + 1) acc) minlength

/-- Model of `np.bincount(ds, minlength)` as a list of rational-valued counts
(the integer dtype of the numpy result is tracked separately). -/
def bincount (minlength : ℕ) (ds : List ℕ) : List ℚ :=
  (List.range (bincountLen minlength ds)).map (fun m => (ds.count m : ℚ))

/-- Model of `a.max()` for a numpy array flattened to a list (0 on the empty array,
whose claims all exclude; numpy itself raises there). -/
def npMax : List ℚ → ℚ
  | [] => 0
  | x :: xs => xs.foldl max x

/-- Model of `a.min()` for a numpy array flattened to a list. -/
def npMin : List ℚ → ℚ
  | [] => 0
  | x :: xs => xs.foldl min x

/-- Model of `a.sum()` for a numpy array flattened to a list. -/
def npSum (l : List ℚ) : ℚ := l.foldl (fun a b => a + b) 0

/-- A 3D numpy array of shape `n × n × n`, stored as its C-order flat
buffer together with its dtype (`isFloat = false` for the int64 array
produced by `np.bincount`, `true` after any true division). -/
structure Raster where
  n : ℕ
  data : List ℚ
  isFloat : Bool
deriving DecidableEq

/-- Entry `(i, j, k)` of an `n × n × n` C-order raster:
flat offset `i*n² + j*n + k`. -/
def Raster.entry (r : Raster) (i j k : ℕ) : ℚ :=
  r.data.getD (i * r.n ^ 2 + j * r.n + k) 0

/-- Model of `rasterize(positions, box_size, resolution, length_unit, gaussian_width,
normalize)` (viewers.py lines 71-120).  `gfilter` stands for scipy's
`gaussian_filter`, receiving exactly the arguments the source passes it:
`sigma = gaussian_width/resolution`, `mode = "wrap"`, and the flat data of
the histogram divided by its maximum.  Error values:

* a negative digitized index would make `np.bincount` raise (cannot happen
  for in-range coordinates);
* a flat index of `n³` or more makes the bincount longer than `n³`, so the
  `reshape((n,n,n))` raises ValueError;
* `raster /= raster.max()` on the integer-dtype bincount array (the
  `gaussian_width ≤ 0` path) raises TypeError, since numpy refuses to cast
  the float output of true_divide into the int64 operand. -/
def rasterize (gfilter : ℚ → String → ℕ → List ℚ → List ℚ)
    (positions : List Vec3) (box_size resolution length_unit gaussian_width : ℚ)
    (normalize : Bool) : Except String Raster :=
  let n := nVoxels box_size resolution length_unit
  let ds := positions.map (flatDig box_size n)
  if ds.any (fun d => decide (d < 0)) then
    .error "ValueError: bincount of negative values"
  else
    let counts := bincount (n ^ 3) (ds.map Int.toNat)
    if counts.length = n ^ 3 then
      let raster1 : Raster :=
        if 0 < gaussian_width then
          ⟨n, gfilter (gaussian_width / resolution) "wrap" n
                (counts.map (fun c => c / npMax counts)), true⟩
        else ⟨n, counts, false⟩
      if normalize then
        if raster1.isFloat then
          .ok ⟨n, raster1.data.map (fun c => c / npMax raster1.data), true⟩
        else
          .error "TypeError: true_divide output could not be coerced to the integer operand"
      else .ok raster1
    else .error "ValueError: cannot reshape bincount into voxel cube"

/-- Bin membership in the sense of the spec: `x` lies in the `b`-th bin of
the regular grid obtained by dividing `[-L/2, L/2]` into `n` equal
intervals. -/
def inBinB (L : ℚ) (n b : ℕ) (x : ℚ) : Bool :=
  decide (binEdge L n b ≤ x) && decide (x < binEdge L n (b + 1))

/-- A point has all three coordinates in `[-L/2, L/2)`. -/
def inBox (L : ℚ) (p : Vec3) : Prop :=
  (-L / 2 ≤ p.1 ∧ p.1 < L / 2) ∧ (-L / 2 ≤ p.2.1 ∧ p.2.1 < L / 2) ∧
    (-L / 2 ≤ p.2.2 ∧ p.2.2 < L / 2)

instance (L : ℚ) (p : Vec3) : Decidable (inBox L p) := by
  unfold inBox
  infer_instance

/-- The bin index of a coordinate, in closed form. -/
def binIdx (L : ℚ) (n : ℕ) (x : ℚ) : ℕ := (⌊(x + L / 2) * n / L⌋).toNat

lemma countP_range_le (b : ℕ) :
    ∀ m : ℕ, (List.range m).countP (fun j => decide (j ≤ b)) = min (b + 1) m := by
  intro m
  induction m with
  | zero => simp
  | succ m ih =>
    rw [List.range_succ, List.countP_append, ih]
    by_cases h : m ≤ b <;> simp [h] <;> omega

lemma edge_le_iff {L : ℚ} {n : ℕ} (hL : 0 < L) (hn : 0 < n) (b : ℕ) (x : ℚ) :
    binEdge L n b ≤ x ↔ (b : ℚ) ≤ (x + L / 2) * n / L := by
  have hn' : (0 : ℚ) < n := by exact_mod_cast hn
  have hLn : 0 < L / (n : ℚ) := div_pos hL hn'
  have h1 : (x + L / 2) * n / L = (x + L / 2) / (L / n) := by
    rw [div_div_eq_mul_div]
  rw [h1, le_div_iff₀ hLn, binEdge]
  constructor <;> intro h <;> linarith

lemma floor_bounds {L : ℚ} {n : ℕ} (hL : 0 < L) (hn : 0 < n) {x : ℚ}
    (h1 : -L / 2 ≤ x) (h2 : x < L / 2) :
    0 ≤ ⌊(x + L / 2) * n / L⌋ ∧ ⌊(x + L / 2) * n / L⌋ < n := by
  have hn' : (0 : ℚ) < n := by exact_mod_cast hn
  constructor
  · rw [Int.floor_nonneg]
    apply div_nonneg _ hL.le
    apply mul_nonneg (by linarith) hn'.le
  · rw [Int.floor_lt]
    push_cast
    rw [div_lt_iff₀ hL]
    nlinarith

lemma digitize_eq_binIdx {L : ℚ} {n : ℕ} (hL : 0 < L) (hn : 0 < n) {x : ℚ}
    (h1 : -L / 2 ≤ x) (h2 : x < L / 2) :
    digitize L n x = binIdx L n x + 1 := by
  obtain ⟨hf0, hfn⟩ := floor_bounds hL hn h1 h2 (n := n)
  have key : ∀ j ∈ List.range (n + 1),
      (decide (binEdge L n j ≤ x) = true) ↔ (decide (j ≤ binIdx L n x) = true) := by
    intro j _
    simp only [decide_eq_true_eq]
    rw [edge_le_iff hL hn j x]
    have hc : ((j : ℤ) : ℚ) = (j : ℚ) := by push_cast; rfl
    rw [show ((j : ℚ) ≤ (x + L / 2) * n / L) ↔ ((j : ℤ) ≤ ⌊(x + L / 2) * n / L⌋) by
      rw [Int.le_floor, hc]]
    unfold binIdx
    omega
  rw [digitize, List.countP_congr key, countP_range_le]
  have : binIdx L n x < n := by unfold binIdx; omega
  omega

lemma inBinB_iff_binIdx {L : ℚ} {n : ℕ} (hL : 0 < L) (hn : 0 < n) {x : ℚ}
    (h1 : -L / 2 ≤ x) (b : ℕ) :
    inBinB L n b x = true ↔ binIdx L n x = b := by
  have hf0 : 0 ≤ ⌊(x + L / 2) * n / L⌋ := by
    have hn' : (0 : ℚ) < n := by exact_mod_cast hn
    rw [Int.floor_nonneg]
    apply div_nonneg _ hL.le
    apply mul_nonneg (by linarith) hn'.le
  rw [inBinB, Bool.and_eq_true]
  simp only [decide_eq_true_eq]
  have hfl : ⌊(x + L / 2) * n / L⌋ = (b : ℤ) ↔
      ((b : ℚ) ≤ (x + L / 2) * n / L ∧ (x + L / 2) * n / L < (b : ℚ) + 1) := by
    rw [Int.floor_eq_iff]
    push_cast
    tauto
  rw [edge_le_iff hL hn b x,
    show (x < binEdge L n (b + 1)) ↔ ¬(binEdge L n (b + 1) ≤ x) from (not_le).symm,
    edge_le_iff hL hn (b + 1) x, not_le]
  unfold binIdx
  constructor
  · intro h
    have : ⌊(x + L / 2) * n / L⌋ = (b : ℤ) := by
      rw [hfl]
      constructor
      · exact h.1
      · have := h.2
        push_cast at this ⊢
        linarith
    omega
  · intro h
    have : ⌊(x + L / 2) * n / L⌋ = (b : ℤ) := by omega
    rw [hfl] at this
    refine ⟨this.1, ?_⟩
    push_cast
    linarith [this.2]

lemma flatDig_spec {L : ℚ} {n : ℕ} (hL : 0 < L) (hn : 0 < n) {p : Vec3}
    (hp : inBox L p) :
    flatDig L n p =
      ((binIdx L n p.1 + binIdx L n p.2.1 * n + binIdx L n p.2.2 * n ^ 2 : ℕ) : ℤ) ∧
    binIdx L n p.1 < n ∧ binIdx L n p.2.1 < n ∧ binIdx L n p.2.2 < n := by
  obtain ⟨⟨hx1, hx2⟩, ⟨hy1, hy2⟩, ⟨hz1, hz2⟩⟩ := hp
  have ex := digitize_eq_binIdx hL hn hx1 hx2 (n := n)
  have ey := digitize_eq_binIdx hL hn hy1 hy2 (n := n)
  have ez := digitize_eq_binIdx hL hn hz1 hz2 (n := n)
  have bx := (floor_bounds hL hn hx1 hx2 (n := n)).2
  have by' := (floor_bounds hL hn hy1 hy2 (n := n)).2
  have bz := (floor_bounds hL hn hz1 hz2 (n := n)).2
  refine ⟨?_, ?_, ?_, ?_⟩
  · rw [flatDig, digX, digY, digZ, ex, ey, ez]
    push_cast
    ring
  · unfold binIdx; omega
  · unfold binIdx; omega
  · unfold binIdx; omega

lemma triple_base_inj {n a b c a' b' c' : ℕ} (ha : a < n) (hb : b < n) (hc : c < n)
    (ha' : a' < n) (hb' : b' < n) (hc' : c' < n)
    (h : a + b * n + c * n ^ 2 = a' + b' * n + c' * n ^ 2) :
    a = a' ∧ b = b' ∧ c = c' := by
  have hn : 0 < n := lt_of_le_of_lt (Nat.zero_le a) ha
  have e1 : ∀ u v w : ℕ, u + (v + w * n) * n = u + v * n + w * n ^ 2 := by
    intro u v w
    ring
  have h' : a + (b + c * n) * n = a' + (b' + c' * n) * n := by
    rw [e1, e1]
    exact h
  have hmod : a = a' := by
    have h1 : (a + (b + c * n) * n) % n = a % n := Nat.add_mul_mod_self_right a _ n
    have h2 : (a' + (b' + c' * n) * n) % n = a' % n := Nat.add_mul_mod_self_right a' _ n
    rw [h'] at h1
    rw [h1] at h2
    rwa [Nat.mod_eq_of_lt ha, Nat.mod_eq_of_lt ha'] at h2
  subst hmod
  have h2 : (b + c * n) * n = (b' + c' * n) * n := by omega
  have h3 : b + c * n = b' + c' * n := Nat.eq_of_mul_eq_mul_right hn h2
  have hb2 : b = b' := by
    have h1 := Nat.add_mul_mod_self_right b c n
    have h2 := Nat.add_mul_mod_self_right b' c' n
    rw [h3] at h1
    rw [h1] at h2
    rwa [Nat.mod_eq_of_lt hb, Nat.mod_eq_of_lt hb'] at h2
  subst hb2
  refine ⟨rfl, rfl, ?_⟩
  have : c * n = c' * n := by omega
  exact Nat.eq_of_mul_eq_mul_right hn this

lemma bincountLen_eq {m : ℕ} {ds : List ℕ} (h : ∀ d ∈ ds, d < m) :
    bincountLen m ds = m := by
  induction ds with
  | nil => rfl
  | cons d ds ih =>
    have hd := h d (by simp)
    have ht : ∀ x ∈ ds, x < m := fun x hx => h x (by simp [hx])
    simp only [bincountLen, List.foldr_cons] at *
    rw [ih ht]
    omega

lemma bincount_getD {m idx : ℕ} {ds : List ℕ} (h : idx < bincountLen m ds) :
    (bincount m ds).getD idx 0 = (ds.count idx : ℚ) := by
  rw [bincount, List.getD_eq_getElem?_getD, List.getElem?_map, List.getElem?_range h]
  rfl

lemma flatNat_eq_iff {L : ℚ} {n : ℕ} (hL : 0 < L) (hn : 0 < n) {p : Vec3}
    (hp : inBox L p) {i j k : ℕ} (hi : i < n) (hj : j < n) (hk : k < n) :
    ((flatDig L n p).toNat = i * n ^ 2 + j * n + k) ↔
      (inBinB L n i p.2.2 && inBinB L n j p.2.1 && inBinB L n k p.1) = true := by
  obtain ⟨hfd, hbx, hby, hbz⟩ := flatDig_spec hL hn hp (n := n)
  obtain ⟨⟨hx1, _⟩, ⟨hy1, _⟩, ⟨hz1, _⟩⟩ := hp
  rw [hfd, Int.toNat_natCast, Bool.and_eq_true, Bool.and_eq_true,
    inBinB_iff_binIdx hL hn hz1 i, inBinB_iff_binIdx hL hn hy1 j,
    inBinB_iff_binIdx hL hn hx1 k]
  constructor
  · intro h
    have h' : binIdx L n p.1 + binIdx L n p.2.1 * n + binIdx L n p.2.2 * n ^ 2
        = k + j * n + i * n ^ 2 := by omega
    obtain ⟨e1, e2, e3⟩ := triple_base_inj hbx hby hbz hk hj hi h'
    exact ⟨⟨e3, e2⟩, e1⟩
  · rintro ⟨⟨ez, ey⟩, ex⟩
    rw [ex, ey, ez]
    ring

lemma flat_lt_cube {n a b c : ℕ} (ha : a < n) (hb : b < n) (hc : c < n) :
    a + b * n + c * n ^ 2 < n ^ 3 := by
  calc a + b * n + c * n ^ 2 < n + b * n + c * n ^ 2 := by omega
    _ = (b + 1) * n + c * n ^ 2 := by ring
    _ ≤ n * n + c * n ^ 2 := by
        have : (b + 1) * n ≤ n * n := Nat.mul_le_mul_right n (by omega)
        omega
    _ = (c + 1) * n ^ 2 := by ring
    _ ≤ n * n ^ 2 := Nat.mul_le_mul_right (n ^ 2) (by omega)
    _ = n ^ 3 := by ring

lemma counts_spec {L : ℚ} {n : ℕ} (hL : 0 < L) (hn : 0 < n)
    (positions : List Vec3) (hdom : ∀ p ∈ positions, inBox L p) :
    ((positions.map (flatDig L n)).any (fun d => decide (d < 0))) = false ∧
    (bincount (n ^ 3) ((positions.map (flatDig L n)).map Int.toNat)).length = n ^ 3 ∧
    ∀ i j k : ℕ, i < n → j < n → k < n →
      (bincount (n ^ 3) ((positions.map (flatDig L n)).map Int.toNat)).getD
          (i * n ^ 2 + j * n + k) 0
        = (positions.countP
            (fun p => inBinB L n i p.2.2 && inBinB L n j p.2.1 && inBinB L n k p.1) : ℚ) := by
  have hkey : ∀ p ∈ positions, 0 ≤ flatDig L n p ∧ (flatDig L n p).toNat < n ^ 3 := by
    intro p hp
    obtain ⟨hfd, hbx, hby, hbz⟩ := flatDig_spec hL hn (hdom p hp) (n := n)
    constructor
    · rw [hfd]
      exact Int.natCast_nonneg _
    · rw [hfd, Int.toNat_natCast]
      exact flat_lt_cube hbx hby hbz
  have hmem : ∀ d ∈ (positions.map (flatDig L n)).map Int.toNat, d < n ^ 3 := by
    intro d hd
    obtain ⟨e, he, rfl⟩ := List.mem_map.mp hd
    obtain ⟨p, hp, rfl⟩ := List.mem_map.mp he
    exact (hkey p hp).2
  have hlen : bincountLen (n ^ 3) ((positions.map (flatDig L n)).map Int.toNat) = n ^ 3 :=
    bincountLen_eq hmem
  refine ⟨?_, ?_, ?_⟩
  · rw [List.any_eq_false]
    intro d hd
    obtain ⟨p, hp, rfl⟩ := List.mem_map.mp hd
    simp only [decide_eq_true_eq, not_lt]
    exact (hkey p hp).1
  · simp only [bincount, List.length_map, List.length_range]
    exact hlen
  · intro i j k hi hj hk
    have hidx : i * n ^ 2 + j * n + k <
        bincountLen (n ^ 3) ((positions.map (flatDig L n)).map Int.toNat) := by
      rw [hlen]
      have : k + j * n + i * n ^ 2 < n ^ 3 := flat_lt_cube hk hj hi
      omega
    rw [bincount_getD hidx]
    congr 1
    rw [List.count_eq_countP, List.countP_map, List.countP_map]
    apply List.countP_congr
    intro p hp
    simp only [Function.comp_apply, beq_iff_eq]
    exact flatNat_eq_iff hL hn (hdom p hp) hi hj hk

/-- The raster entry of a rasterize result (−1 when the call failed), used to
state concrete evaluations. -/
def entryOf (res : Except String Raster) (i j k : ℕ) : ℚ :=
  match res with
  | .ok r => r.entry i j k
  | .error _ => -1

/-- C1, amended: for every non-empty Nx3 positions list with all coordinates
in [-box_size/2, box_size/2), rasterize with gaussian_width ≤ 0 and
normalize = False returns an M×M×M array, M = int(box_size /
(resolution/length_unit)), whose entry (i, j, k) equals the number of input
points whose *z*, *y* and *x* coordinates fall in the i-th, j-th and k-th
bins of the regular grid dividing [-box_size/2, box_size/2] into M equal
intervals — the array is indexed (z, y, x), not (x, y, z) as the claim
stated. -/
theorem claim_C1_amended
    (gfilter : ℚ → String → ℕ → List ℚ → List ℚ)
    (positions : List Vec3) (box_size resolution length_unit gaussian_width : ℚ)
    (hL : 0 < box_size) (hn : 0 < nVoxels box_size resolution length_unit)
    (hne : positions ≠ [])
    (hdom : ∀ p ∈ positions, inBox box_size p)
    (hgw : gaussian_width ≤ 0) :
    ∃ r : Raster,
      rasterize gfilter positions box_size resolution length_unit gaussian_width false
        = .ok r ∧
      r.n = nVoxels box_size resolution length_unit ∧
      r.data.length = nVoxels box_size resolution length_unit ^ 3 ∧
      ∀ i j k : ℕ, i < r.n → j < r.n → k < r.n →
        r.entry i j k = (positions.countP (fun p =>
          inBinB box_size r.n i p.2.2 && inBinB box_size r.n j p.2.1 &&
            inBinB box_size r.n k p.1) : ℚ) := by
  obtain ⟨hany, hlen, hentry⟩ :=
    counts_spec hL hn positions hdom (n := nVoxels box_size resolution length_unit)
  refine ⟨⟨nVoxels box_size resolution length_unit,
    bincount (nVoxels box_size resolution length_unit ^ 3)
      ((positions.map (flatDig box_size (nVoxels box_size resolution length_unit))).map
        Int.toNat), false⟩, ?_, rfl, hlen, ?_⟩
  · simp only [rasterize, hany, Bool.false_eq_true, if_false, hlen, if_true,
      not_lt.mpr hgw, if_neg (not_lt.mpr hgw)]
  · intro i j k hi hj hk
    exact hentry i j k hi hj hk

/-- Witness for the amended C1 at a concrete input: one point, box_size 2,
resolution 50, length_unit 50 (so M = 2). -/
theorem claim_C1_witness :
    (0 : ℚ) < 2 ∧ 0 < nVoxels 2 50 50 ∧
    (∀ p ∈ [(((-1 : ℚ)/2, (-1 : ℚ)/2, (1 : ℚ)/2) : Vec3)], inBox 2 p) ∧
    (∃ r : Raster,
      rasterize (fun _ _ _ d => d) [(((-1 : ℚ)/2, (-1 : ℚ)/2, (1 : ℚ)/2) : Vec3)]
          2 50 50 0 false = .ok r ∧
      r.n = nVoxels 2 50 50 ∧
      r.data.length = nVoxels 2 50 50 ^ 3 ∧
      ∀ i j k : ℕ, i < r.n → j < r.n → k < r.n →
        r.entry i j k = ([(((-1 : ℚ)/2, (-1 : ℚ)/2, (1 : ℚ)/2) : Vec3)].countP (fun p =>
          inBinB 2 r.n i p.2.2 && inBinB 2 r.n j p.2.1 && inBinB 2 r.n k p.1) : ℚ)) := by
  have hnv : nVoxels 2 50 50 = 2 := by
    norm_num [nVoxels, intTrunc]
    rfl
  have hdom : ∀ p ∈ [(((-1 : ℚ)/2, (-1 : ℚ)/2, (1 : ℚ)/2) : Vec3)], inBox 2 p := by
    intro p hp
    rw [List.mem_singleton] at hp
    subst hp
    norm_num [inBox]
  exact ⟨by norm_num, by rw [hnv]; norm_num, hdom,
    claim_C1_amended (fun _ _ _ d => d) _ 2 50 50 0 (by norm_num) (by rw [hnv]; norm_num)
      (by simp) hdom le_rfl⟩

/-- C1 counterexample: with box_size 2, resolution 50, length_unit 50
(M = 2) and the single point (-1/2, -1/2, 1/2) — x in bin 0, y in bin 0,
z in bin 1 — the claim as stated predicts entry (0, 0, 1) = 1, but the code
returns 0 there and records the point at entry (1, 0, 0). -/
theorem claim_C1_counterexample :
    nVoxels 2 50 50 = 2 ∧
    inBinB 2 2 0 ((-1 : ℚ)/2) = true ∧
    inBinB 2 2 1 ((1 : ℚ)/2) = true ∧
    entryOf (rasterize (fun _ _ _ d => d)
      [(((-1 : ℚ)/2, (-1 : ℚ)/2, (1 : ℚ)/2) : Vec3)] 2 50 50 0 false) 0 0 1 = 0 ∧
    entryOf (rasterize (fun _ _ _ d => d)
      [(((-1 : ℚ)/2, (-1 : ℚ)/2, (1 : ℚ)/2) : Vec3)] 2 50 50 0 false) 1 0 0 = 1 := by
  have hnv : nVoxels 2 50 50 = 2 := by
    norm_num [nVoxels, intTrunc]
    rfl
  have hda : digitize 2 2 (-(1/2) : ℚ) = 1 := by
    norm_num [digitize, List.range_succ, List.countP_append, List.countP_cons,
      List.countP_nil, binEdge]
  have hdb : digitize 2 2 ((1/2 : ℚ)) = 2 := by
    norm_num [digitize, List.range_succ, List.countP_append, List.countP_cons,
      List.countP_nil, binEdge]
  have hflat : flatDig 2 2 (((-1 : ℚ)/2, (-1 : ℚ)/2, (1 : ℚ)/2) : Vec3) = 4 := by
    norm_num [flatDig, digX, digY, digZ, hda, hdb]
  have hbc : bincount 8 [4] = [0, 0, 0, 0, 1, 0, 0, 0] := by
    norm_num [bincount, bincountLen, List.range_succ]
  have hres : rasterize (fun _ _ _ d => d)
      [(((-1 : ℚ)/2, (-1 : ℚ)/2, (1 : ℚ)/2) : Vec3)] 2 50 50 0 false
      = .ok ⟨2, [0, 0, 0, 0, 1, 0, 0, 0], false⟩ := by
    simp only [rasterize, hnv, List.map_cons, List.map_nil, hflat]
    simp [hbc]
  refine ⟨hnv, ?_, ?_, ?_, ?_⟩
  · norm_num [inBinB, binEdge]
  · norm_num [inBinB, binEdge]
  · rw [hres]
    norm_num [entryOf, Raster.entry]
  · rw [hres]
    norm_num [entryOf, Raster.entry]

/-- C9: on the closed-interval domain the docstring states, a coordinate
equal to +box_size/2 (here x = 1 with box_size = 2) together with last-bin
coordinates on the other axes drives the flat bin index to n_voxels³ = 8,
so the bincount has length n_voxels³ + 1 = 9 and the reshape to
(n_voxels, n_voxels, n_voxels) — hence rasterize — fails. -/
theorem claim_C9 :
    nVoxels 2 50 50 = 2 ∧
    (-1 ≤ (1 : ℚ) ∧ (1 : ℚ) ≤ 1) ∧ (-1 ≤ (1 : ℚ)/2 ∧ (1 : ℚ)/2 ≤ 1) ∧
    inBinB 2 2 1 ((1 : ℚ)/2) = true ∧
    flatDig 2 2 (((1 : ℚ), (1 : ℚ)/2, (1 : ℚ)/2) : Vec3) = 2 ^ 3 ∧
    (bincount (2 ^ 3)
      (([(((1 : ℚ), (1 : ℚ)/2, (1 : ℚ)/2) : Vec3)].map (flatDig 2 2)).map
        Int.toNat)).length = 2 ^ 3 + 1 ∧
    rasterize (fun _ _ _ d => d) [(((1 : ℚ), (1 : ℚ)/2, (1 : ℚ)/2) : Vec3)]
        2 50 50 250 false
      = .error "ValueError: cannot reshape bincount into voxel cube" := by
  have hnv : nVoxels 2 50 50 = 2 := by
    norm_num [nVoxels, intTrunc]
    rfl
  have hda : digitize 2 2 ((1 : ℚ)) = 3 := by
    norm_num [digitize, List.range_succ, List.countP_append, List.countP_cons,
      List.countP_nil, binEdge]
  have hdb : digitize 2 2 ((1/2 : ℚ)) = 2 := by
    norm_num [digitize, List.range_succ, List.countP_append, List.countP_cons,
      List.countP_nil, binEdge]
  have hflat : flatDig 2 2 (((1 : ℚ), (1 : ℚ)/2, (1 : ℚ)/2) : Vec3) = 8 := by
    norm_num [flatDig, digX, digY, digZ, hda, hdb]
  have hlen : (bincount 8 [8]).length = 9 := by
    norm_num [bincount, bincountLen, List.range_succ]
  refine ⟨hnv, by norm_num, by norm_num, by norm_num [inBinB, binEdge],
    by rw [hflat]; norm_num, ?_, ?_⟩
  · simp only [List.map_cons, List.map_nil, hflat]
    simp [hlen]
  · simp only [rasterize, hnv, List.map_cons, List.map_nil, hflat]
    simp [hlen]

/-- C10: with gaussian_width ≤ 0 and normalize = True the source hits
`raster /= raster.max()` on the integer-dtype bincount array, which numpy
rejects with a TypeError, instead of returning the normalized raster the
docstring promises. -/
theorem claim_C10 :
    rasterize (fun _ _ _ d => d) [(((0 : ℚ), (0 : ℚ), (0 : ℚ)) : Vec3)] 2 50 50 0 true
      = .error "TypeError: true_divide output could not be coerced to the integer operand" := by
  have hnv : nVoxels 2 50 50 = 2 := by
    norm_num [nVoxels, intTrunc]
    rfl
  have hd : digitize 2 2 ((0 : ℚ)) = 2 := by
    norm_num [digitize, List.range_succ, List.countP_append, List.countP_cons,
      List.countP_nil, binEdge]
  have hflat : flatDig 2 2 (((0 : ℚ), (0 : ℚ), (0 : ℚ)) : Vec3) = 7 := by
    norm_num [flatDig, digX, digY, digZ, hd]
  have hlen : (bincount 8 [7]).length = 8 := by
    norm_num [bincount, bincountLen, List.range_succ]
  simp only [rasterize, hnv, List.map_cons, List.map_nil, hflat]
  simp [hlen]

/-- An RGBA color `(r, g, b, a)` as produced by a matplotlib colormap lookup. -/
abbrev Rgba : Type := ℚ × ℚ × ℚ × ℚ

/-- An RGB pixel `(r, g, b)`. -/
abbrev Rgb : Type := ℚ × ℚ × ℚ

/-- matplotlib `Normalize(vmin, vmax)` applied to one value: linear rescaling
of `[vmin, vmax]` onto `[0, 1]`.  (matplotlib maps every value to 0 when
`vmin = vmax`; rational division by zero reproduces that.) -/
def mplNormalize (vmin vmax x : ℚ) : ℚ := (x - vmin) / (vmax - vmin)

/-- One reduction line of a 3D raster along `axis` at 2D index `(a, b)`:
the entries `raster[c, a, b]` (axis 0), `raster[a, c, b]` (axis 1) or
`raster[a, b, c]` (axis 2) for `c = 0 .. n-1`. -/
def axisLine (r : Raster) (axis a b : ℕ) : List ℚ :=
  (List.range r.n).map (fun c =>
    if axis = 0 then r.entry c a b
    else if axis = 1 then r.entry a c b
    else r.entry a b c)

/-- Model of `raster.max(axis=axis)` or `raster.sum(axis=axis)` for an n×n×n raster:
the 2D array whose `(a, b)` entry reduces the corresponding axis line. -/
def project (red : List ℚ → ℚ) (axis : ℕ) (r : Raster) : List (List ℚ) :=
  (List.range r.n).map (fun a =>
    (List.range r.n).map (fun b => red (axisLine r axis a b)))

/-- Model of `voxels_to_pixels_RGB(raster, cmap, vmin, vmax, mode, axis)`
(viewers.py lines 123-167).  `cmap` stands for the matplotlib colormap
lookup applied after `Normalize(vmin, vmax)` by `ScalarMappable.to_rgba`;
`vmin`/`vmax` default to the projected data range when `None`.  The
function's own error is the `RuntimeError` raised for an unsupported
projection mode; an out-of-bounds axis makes the underlying numpy
reduction raise before anything else in that branch. -/
def voxels_to_pixels_RGB (cmap : ℚ → Rgba) (raster : Raster) (vmin vmax : Option ℚ)
    (mode : String) (axis : ℕ) : Except String (List (List Rgb)) :=
  if mode = "max" ∨ mode = "sum" then
    if 3 ≤ axis then .error "AxisError: axis out of bounds"
    else
      let raster2D := project (if mode = "max" then npMax else npSum) axis raster
      let flat := raster2D.flatten
      let vmn := vmin.getD (npMin flat)
      let vmx := vmax.getD (npMax flat)
      let im := raster2D.map (fun row => row.map (fun v => cmap (mplNormalize vmn vmx v)))
      .ok (im.map (fun row => row.map (fun c => ((c.1, c.2.1, c.2.2.1) : Rgb))))
  else .error ("RuntimeError: Unsupported projection mode " ++ mode)

/-- Modelled from the claim wording for C2: the colormap lookup applied to
the element-wise reduction of the raster along the given axis, normalized
linearly between vmin and vmax, keeping only the R, G, B channels of each
looked-up color. -/
def claimProjectionImage (cmap : ℚ → Rgba) (red : List ℚ → ℚ) (axis : ℕ)
    (r : Raster) (vmin vmax : ℚ) : List (List Rgb) :=
  (List.range r.n).map (fun a =>
    (List.range r.n).map (fun b =>
      let c := cmap ((red (axisLine r axis a b) - vmin) / (vmax - vmin))
      ((c.1, c.2.1, c.2.2.1) : Rgb)))

/-- C2: with mode='max' the result is the colormap lookup applied to the
element-wise maximum along the given axis, with mode='sum' to the
element-wise sum, each normalized linearly between vmin and vmax; the
result has the projected 2D shape with the alpha channel dropped (the
trailing dimension is the 3-tuple RGB type). -/
theorem claim_C2 (cmap : ℚ → Rgba) (r : Raster) (vmin vmax : ℚ) (axis : ℕ)
    (haxis : axis < 3) :
    voxels_to_pixels_RGB cmap r (some vmin) (some vmax) "max" axis
      = .ok (claimProjectionImage cmap npMax axis r vmin vmax) ∧
    voxels_to_pixels_RGB cmap r (some vmin) (some vmax) "sum" axis
      = .ok (claimProjectionImage cmap npSum axis r vmin vmax) ∧
    (claimProjectionImage cmap npMax axis r vmin vmax).length = r.n ∧
    ∀ row ∈ claimProjectionImage cmap npMax axis r vmin vmax, row.length = r.n := by
  have hax : ¬ 3 ≤ axis := not_le.mpr haxis
  refine ⟨?_, ?_, ?_, ?_⟩
  · simp [voxels_to_pixels_RGB, hax, project, claimProjectionImage, mplNormalize,
      List.map_map, Function.comp]
  · simp [voxels_to_pixels_RGB, hax, project, claimProjectionImage, mplNormalize,
      List.map_map, Function.comp]
  · simp [claimProjectionImage]
  · intro row hrow
    simp only [claimProjectionImage, List.mem_map] at hrow
    obtain ⟨a, _, rfl⟩ := hrow
    simp

/-- Witness for C2 at a concrete input: a 1×1×1 raster, grayscale colormap,
vmin = 0, vmax = 1, axis 2. -/
theorem claim_C2_witness :
    2 < 3 ∧
    (voxels_to_pixels_RGB (fun v => ((v, v, v, 1) : Rgba)) ⟨1, [5], false⟩
        (some 0) (some 1) "max" 2
      = .ok (claimProjectionImage (fun v => ((v, v, v, 1) : Rgba)) npMax 2
          ⟨1, [5], false⟩ 0 1) ∧
    voxels_to_pixels_RGB (fun v => ((v, v, v, 1) : Rgba)) ⟨1, [5], false⟩
        (some 0) (some 1) "sum" 2
      = .ok (claimProjectionImage (fun v => ((v, v, v, 1) : Rgba)) npSum 2
          ⟨1, [5], false⟩ 0 1) ∧
    (claimProjectionImage (fun v => ((v, v, v, 1) : Rgba)) npMax 2
        ⟨1, [5], false⟩ 0 1).length = Raster.n ⟨1, [5], false⟩ ∧
    ∀ row ∈ claimProjectionImage (fun v => ((v, v, v, 1) : Rgba)) npMax 2
        ⟨1, [5], false⟩ 0 1, row.length = Raster.n ⟨1, [5], false⟩) :=
  ⟨by norm_num, claim_C2 (fun v => ((v, v, v, 1) : Rgba)) ⟨1, [5], false⟩ 0 1 2 (by norm_num)⟩

/-- C3: with a valid axis, voxels_to_pixels_RGB errors exactly when the
projection mode is neither 'max' nor 'sum'; for 'max' and 'sum' an image is
returned.  (Failure modes of the underlying library on degenerate data,
such as reducing an empty array, are outside the claim's "well-shaped"
scope and are not modelled.) -/
theorem claim_C3 (cmap : ℚ → Rgba) (r : Raster) (vmin vmax : Option ℚ)
    (mode : String) (axis : ℕ) (haxis : axis < 3) :
    (voxels_to_pixels_RGB cmap r vmin vmax mode axis).isOk = true
      ↔ (mode = "max" ∨ mode = "sum") := by
  have hax : ¬ 3 ≤ axis := not_le.mpr haxis
  by_cases h : mode = "max" ∨ mode = "sum"
  · unfold voxels_to_pixels_RGB
    rw [if_pos h, if_neg hax]
    exact iff_of_true rfl h
  · unfold voxels_to_pixels_RGB
    rw [if_neg h]
    exact iff_of_false (by simp [Except.isOk, Except.toBool]) h

/-- Witness for C3 at a concrete input: the unsupported mode 'avg' on a
1×1×1 raster with axis 2 yields an error, matching the disequality. -/
theorem claim_C3_witness :
    2 < 3 ∧
    ((voxels_to_pixels_RGB (fun v => ((v, v, v, 1) : Rgba)) ⟨1, [5], false⟩
        none none "avg" 2).isOk = true ↔ (("avg" : String) = "max" ∨ ("avg" : String) = "sum")) :=
  ⟨by norm_num, claim_C3 (fun v => ((v, v, v, 1) : Rgba)) ⟨1, [5], false⟩ none none "avg" 2
    (by norm_num)⟩

/-- Model of `plt.register_cmap(name=..., cmap=...)`: raises a ValueError when a
colormap of that name is already registered, otherwise adds the name to
matplotlib's global colormap registry. -/
def register_cmap (registry : List String) (name : String) : Except String (List String) :=
  if name ∈ registry then
    .error ("ValueError: a colormap named " ++ name ++ " is already registered")
  else .ok (registry ++ [name])

/-- The global matplotlib/numpy state touched by `chromosome_viewer`: the
stream of values the global RNG will produce next, and the global colormap
registry. -/
structure ViewerState where
  rng : List ℚ
  registry : List String
deriving DecidableEq

/-- The data content of the figure `chromosome_viewer` builds: one panel per
chromosome, with its colormap name and the per-monomer colors of its
colorbar.  (Panel geometry depends only on `chrom_lengths`, so it is
omitted.) -/
structure ViewerFig where
  panels : List (String × List Rgba)
deriving DecidableEq

/-- Source line `colors[:, :3] = np.random.random((num_chrom, 3))` with alpha left at 1:
row i is built from global-RNG draws 3i, 3i+1, 3i+2. -/
def chromColors (rng : List ℚ) (numChrom : ℕ) : List Rgba :=
  (List.range numChrom).map (fun i =>
    ((rng.getD (3 * i) 0, rng.getD (3 * i + 1) 0, rng.getD (3 * i + 2) 0, 1) : Rgba))

/-- Model of `np.repeat(colors, chrom_lengths, axis=0)`. -/
def repeatRows (colors : List Rgba) (lens : List ℕ) : List Rgba :=
  (colors.zip lens).flatMap (fun cl => List.replicate cl.2 cl.1)

/-- Source line `chrom_bounds = np.insert(np.cumsum(chrom_lengths), 0, 0)`:
the partial sums of the chromosome lengths. -/
def chromBounds (lens : List ℕ) : List ℕ :=
  (List.range (lens.length + 1)).map (fun i => (lens.take i).sum)

/-- One iteration of the registration loop in `chromosome_viewer`
(viewers.py lines 55-59): call `plt.register_cmap` and swallow the
ValueError (`except ValueError: pass`). -/
def registerStep (reg : List String) (i : ℕ) : List String :=
  match register_cmap reg ("chromosome " ++ toString (i + 1)) with
  | .ok reg2 => reg2
  | .error _ => reg

/-- Model of `chromosome_viewer(chrom_lengths, colors, height, width)` (viewers.py
lines 12-68), over the global state it reads or mutates.  When `colors` is
None the monomer colors are drawn from the global RNG (3 draws per
chromosome) and repeated per chromosome length; each loop iteration
registers the panel's colormap in the global registry, swallowing the
re-registration ValueError.  The result type is `Except` so that a
propagated library exception would be visible; the function never
produces one. -/
def chromosome_viewer (s : ViewerState) (chrom_lengths : List ℕ)
    (colors? : Option (List Rgba)) : Except String (ViewerFig × ViewerState) :=
  let numChrom := chrom_lengths.length
  let bounds := chromBounds chrom_lengths
  let colors := match colors? with
    | some cs => cs
    | none => repeatRows (chromColors s.rng numChrom) chrom_lengths
  let rng' := match colors? with
    | some _ => s.rng
    | none => s.rng.drop (3 * numChrom)
  let registry' := (List.range numChrom).foldl registerStep s.registry
  let panels := (List.range numChrom).map (fun i =>
    ("chromosome " ++ toString (i + 1),
      (colors.drop (bounds.getD i 0)).take (bounds.getD (i + 1) 0 - bounds.getD i 0)))
  .ok (⟨panels⟩, ⟨rng', registry'⟩)

/-- The figure part of a `chromosome_viewer` result. -/
def figOf (res : Except String (ViewerFig × ViewerState)) : Option ViewerFig :=
  match res with
  | .ok fs => some fs.1
  | .error _ => none

lemma registerStep_mem {reg : List String} {x : String} (hx : x ∈ reg) (i : ℕ) :
    x ∈ registerStep reg i := by
  unfold registerStep register_cmap
  by_cases h : ("chromosome " ++ toString (i + 1)) ∈ reg <;> simp [h, hx]

lemma registerStep_self (reg : List String) (i : ℕ) :
    ("chromosome " ++ toString (i + 1)) ∈ registerStep reg i := by
  unfold registerStep register_cmap
  by_cases h : ("chromosome " ++ toString (i + 1)) ∈ reg <;> simp [h]

lemma foldl_registerStep_mem (l : List ℕ) (reg : List String) {x : String}
    (hx : x ∈ reg) : x ∈ l.foldl registerStep reg := by
  induction l generalizing reg with
  | nil => exact hx
  | cons i l ih => exact ih (registerStep reg i) (registerStep_mem hx i)

lemma foldl_registerStep_covers (l : List ℕ) (reg : List String) {i : ℕ}
    (hi : i ∈ l) :
    ("chromosome " ++ toString (i + 1)) ∈ l.foldl registerStep reg := by
  induction l generalizing reg with
  | nil => cases hi
  | cons j l ih =>
    rcases List.mem_cons.mp hi with h | h
    · subst h
      exact foldl_registerStep_mem l (registerStep reg i) (registerStep_self reg i)
    · exact ih (registerStep reg j) h

/-- C4, amended: the array-processing operations are deterministic, and
`chromosome_viewer` with explicit colors builds a figure independent of the
global state; but `chromosome_viewer` with colors=None consumes global RNG
state (the remaining stream is the input stream minus 3 draws per
chromosome) and registers one colormap per chromosome in matplotlib's
global registry, a registration that persists after the call. -/
theorem claim_C4_amended (s s' : ViewerState) (chrom_lengths : List ℕ)
    (cs : List Rgba) :
    figOf (chromosome_viewer s chrom_lengths (some cs))
      = figOf (chromosome_viewer s' chrom_lengths (some cs)) ∧
    ∀ f s2, chromosome_viewer s chrom_lengths none = .ok (f, s2) →
      s2.rng = s.rng.drop (3 * chrom_lengths.length) ∧
      ∀ i, i < chrom_lengths.length →
        ("chromosome " ++ toString (i + 1)) ∈ s2.registry := by
  constructor
  · rfl
  · intro f s2 h
    unfold chromosome_viewer at h
    simp only [Except.ok.injEq, Prod.mk.injEq] at h
    obtain ⟨-, hs⟩ := h
    subst hs
    refine ⟨rfl, fun i hi => ?_⟩
    exact foldl_registerStep_covers _ s.registry (List.mem_range.mpr hi)

/-- Witness for the amended C4: a concrete colors=None run consumes the
three-element stream and leaves the registration behind. -/
theorem claim_C4_witness :
    ∃ f s2, chromosome_viewer ⟨[1/2, 1/3, 1/4], []⟩ [1] none = .ok (f, s2) ∧
      s2.rng = ([1/2, 1/3, 1/4] : List ℚ).drop 3 ∧
      "chromosome 1" ∈ s2.registry := by
  obtain ⟨-, h2⟩ := claim_C4_amended ⟨[1/2, 1/3, 1/4], []⟩ ⟨[], []⟩ [1] []
  exact ⟨_, _, rfl, (h2 _ _ rfl).1, (h2 _ _ rfl).2 0 (by norm_num)⟩

/-- C4 counterexample: two successive `chromosome_viewer` calls with the
same chrom_lengths and colors=None, run against the evolving global state,
produce different figures (the second call consumes later RNG draws), and
already the first call leaves a persistent colormap registration behind. -/
theorem claim_C4_counterexample :
    chromosome_viewer ⟨[1/10, 1/5, 3/10, 2/5, 1/2, 3/5], []⟩ [1] none
      = .ok (⟨[("chromosome 1", [((1/10, 1/5, 3/10, 1) : Rgba)])]⟩,
             ⟨[2/5, 1/2, 3/5], ["chromosome 1"]⟩) ∧
    chromosome_viewer ⟨[2/5, 1/2, 3/5], ["chromosome 1"]⟩ [1] none
      = .ok (⟨[("chromosome 1", [((2/5, 1/2, 3/5, 1) : Rgba)])]⟩,
             ⟨[], ["chromosome 1"]⟩) ∧
    (⟨[("chromosome 1", [((1/10, 1/5, 3/10, 1) : Rgba)])]⟩ : ViewerFig)
      ≠ ⟨[("chromosome 1", [((2/5, 1/2, 3/5, 1) : Rgba)])]⟩ ∧
    (["chromosome 1"] : List String) ≠ [] := by
  refine ⟨rfl, rfl, ?_, by simp⟩
  intro h
  simp only [ViewerFig.mk.injEq, List.cons.injEq, Prod.mk.injEq] at h
  have : (1 : ℚ)/10 = 2/5 := h.1.2.1.1
  norm_num at this

/-- C6 counterexample: with "chromosome 1" already registered, the
underlying `plt.register_cmap` call raises a ValueError, yet
`chromosome_viewer` completes normally and returns its figure — the
exception is swallowed by the `try/except ValueError: pass` and does not
propagate to the caller. -/
theorem claim_C6_counterexample :
    register_cmap ["chromosome 1"] "chromosome 1"
      = .error "ValueError: a colormap named chromosome 1 is already registered" ∧
    chromosome_viewer ⟨[], ["chromosome 1"]⟩ [2]
        (some [((1, 0, 0, 1) : Rgba), ((0, 1, 0, 1) : Rgba)])
      = .ok (⟨[("chromosome 1", [((1, 0, 0, 1) : Rgba), ((0, 1, 0, 1) : Rgba)])]⟩,
             ⟨[], ["chromosome 1"]⟩) := by
  constructor
  · simp [register_cmap]
  · rfl

/-- C6, amended: no operation retries or recovers, and the embedded
operations surface their errors — except that `chromosome_viewer` swallows
the ValueError raised when a colormap name is already registered, so no
exception ever escapes it. -/
theorem claim_C6_amended (s : ViewerState) (chrom_lengths : List ℕ)
    (colors? : Option (List Rgba)) :
    (chromosome_viewer s chrom_lengths colors?).isOk = true := rfl

/-- The sphere geometry `_fresnel` creates for unbound monomers:
its radius, position and color buffers. -/
structure SphGeom where
  radius : List ℚ
  position : List Vec3
  color : List (List ℚ)
deriving DecidableEq

/-- The claim-relevant data of the scene `_fresnel` constructs: the
cylinder geometry buffers for the bonds and, when unbound monomers exist,
the sphere geometry.  Materials, camera and lights are built from constants
by the library and carry no claim-relevant data. -/
structure FresnelScene where
  cylPoints : List (Vec3 × Vec3)
  cylRadius : List ℚ
  cylColor : List (List ℚ × List ℚ)
  spheres : Option SphGeom
deriving DecidableEq

/-- Source line `polymer_mask = np.ones(N, bool); polymer_mask[bonds] = False`
(backends.py lines 158-159): entry i is true iff monomer i appears in no
bond. -/
def polymerMask (numPos : ℕ) (bonds : List (ℕ × ℕ)) : List Bool :=
  (List.range numPos).map (fun i => bonds.all (fun bd => bd.1 != i && bd.2 != i))

/-- numpy boolean-mask indexing `a[mask]`: the mask length must equal the
array's leading dimension, else numpy raises an IndexError. -/
def boolIndex {α : Type} (mask : List Bool) (l : List α) : Except String (List α) :=
  if mask.length = l.length then
    .ok ((mask.zip l).filterMap (fun ml => if ml.1 then some ml.2 else none))
  else .error "IndexError: boolean index did not match indexed array"

/-- Model of `Fresnel._fresnel(positions, bonds, colors, radii, ...)` (backends.py
lines 85-177), with `lin` standing for fresnel's shape-preserving sRGB
conversion `fl.color.linear` applied to each color row.  Error paths
modelled: integer fancy indexing with an out-of-range bond index
(`positions[bonds]`, `radii[bonds]`); the explicit ValueError raise when
the color row count matches neither the monomer nor the bond count; and
boolean-mask indexing with a mask whose length differs from the indexed
array's leading dimension (`radii[polymer_mask]`, `positions[polymer_mask]`,
`corrected_colors[polymer_mask]` on the unbound-monomer path). -/
def fresnelScene (lin : List ℚ → List ℚ) (positions : List Vec3)
    (bonds : List (ℕ × ℕ)) (colors : List (List ℚ)) (radii : List ℚ) :
    Except String FresnelScene :=
  if bonds.any (fun bd =>
      decide (positions.length ≤ bd.1) || decide (positions.length ≤ bd.2)) then
    .error "IndexError: bond index out of range for positions"
  else if bonds.any (fun bd =>
      decide (radii.length ≤ bd.1) || decide (radii.length ≤ bd.2)) then
    .error "IndexError: bond index out of range for radii"
  else
    let cylPoints := bonds.map (fun bd =>
      (positions.getD bd.1 ((0, 0, 0) : Vec3), positions.getD bd.2 ((0, 0, 0) : Vec3)))
    let cylRadius := bonds.map (fun bd => min (radii.getD bd.1 0) (radii.getD bd.2 0))
    let corrected := colors.map lin
    let cylColor? : Except String (List (List ℚ × List ℚ)) :=
      if corrected.length = positions.length then
        .ok (bonds.map (fun bd => (corrected.getD bd.1 [], corrected.getD bd.2 [])))
      else if corrected.length = bonds.length then
        .ok (corrected.map (fun c => (c, c)))
      else .error "ValueError: Color array does not match particle or bond dimensions"
    do
      let cylColor ← cylColor?
      let mask := polymerMask positions.length bonds
      if 0 < mask.countP id then
        let sr ← boolIndex mask radii
        let sp ← boolIndex mask positions
        let sc ← boolIndex mask corrected
        return ⟨cylPoints, cylRadius, cylColor, some ⟨sr, sp, sc⟩⟩
      else
        return ⟨cylPoints, cylRadius, cylColor, none⟩

lemma polymerMask_length (numPos : ℕ) (bonds : List (ℕ × ℕ)) :
    (polymerMask numPos bonds).length = numPos := by
  simp [polymerMask]

lemma exbind_ok {α β : Type} (a : α) (f : α → Except String β) :
    (Except.ok a >>= f) = f a := rfl

lemma exbind_err {α β : Type} (e : String) (f : α → Except String β) :
    ((Except.error e : Except String α) >>= f) = Except.error e := rfl

lemma expure_eq {α : Type} (a : α) : (pure a : Except String α) = Except.ok a := rfl

/-- C5, amended: for well-shaped positions, bonds and radii, `_fresnel`
raises if and only if the color row count matches neither the monomer
count nor the bond count, OR the colors are per-bond (row count matching
bonds but not monomers) while at least one monomer is unbound — in the
latter case the boolean-mask color lookup for the unbound spheres fails. -/
theorem claim_C5_amended (lin : List ℚ → List ℚ) (positions : List Vec3)
    (bonds : List (ℕ × ℕ)) (colors : List (List ℚ)) (radii : List ℚ)
    (hb : ∀ bd ∈ bonds, bd.1 < positions.length ∧ bd.2 < positions.length)
    (hr : radii.length = positions.length) :
    ((fresnelScene lin positions bonds colors radii).isOk = false)
      ↔ (colors.length ≠ positions.length ∧
          (colors.length ≠ bonds.length ∨
            0 < (polymerMask positions.length bonds).countP id)) := by
  have hany1 : (bonds.any (fun bd =>
      decide (positions.length ≤ bd.1) || decide (positions.length ≤ bd.2))) = false := by
    rw [List.any_eq_false]
    intro bd hbd
    obtain ⟨h1, h2⟩ := hb bd hbd
    simp only [Bool.or_eq_true, decide_eq_true_eq, not_or, not_le]
    exact ⟨h1, h2⟩
  have hany2 : (bonds.any (fun bd =>
      decide (radii.length ≤ bd.1) || decide (radii.length ≤ bd.2))) = false := by
    rw [List.any_eq_false]
    intro bd hbd
    obtain ⟨h1, h2⟩ := hb bd hbd
    simp only [Bool.or_eq_true, decide_eq_true_eq, not_or, not_le, hr]
    exact ⟨h1, h2⟩
  have hcl : (colors.map lin).length = colors.length := List.length_map colors lin
  have hmask := polymerMask_length positions.length bonds
  have e1 : boolIndex (polymerMask positions.length bonds) radii = .ok
      (((polymerMask positions.length bonds).zip radii).filterMap
        (fun ml => if ml.1 then some ml.2 else none)) := by
    unfold boolIndex
    rw [if_pos (by rw [hmask, hr])]
  have e2 : boolIndex (polymerMask positions.length bonds) positions = .ok
      (((polymerMask positions.length bonds).zip positions).filterMap
        (fun ml => if ml.1 then some ml.2 else none)) := by
    unfold boolIndex
    rw [if_pos (by rw [hmask])]
  unfold fresnelScene
  simp only [hany1, hany2, Bool.false_eq_true, if_false, hcl]
  by_cases h1 : colors.length = positions.length
  · have e3 : boolIndex (polymerMask positions.length bonds) (colors.map lin) = .ok
        (((polymerMask positions.length bonds).zip (colors.map lin)).filterMap
          (fun ml => if ml.1 then some ml.2 else none)) := by
      unfold boolIndex
      rw [if_pos (by rw [hmask, hcl, h1])]
    rw [if_pos h1]
    by_cases h2 : 0 < (polymerMask positions.length bonds).countP id
    · simp only [exbind_ok, if_pos h2, e1, e2, e3]
      exact iff_of_false (by simp [expure_eq, Except.isOk, Except.toBool]) (fun hc => hc.1 h1)
    · simp only [exbind_ok, if_neg h2]
      exact iff_of_false (by simp [expure_eq, Except.isOk, Except.toBool]) (fun hc => hc.1 h1)
  · rw [if_neg h1]
    by_cases h2 : colors.length = bonds.length
    · have e3 : boolIndex (polymerMask positions.length bonds) (colors.map lin)
          = .error "IndexError: boolean index did not match indexed array" := by
        unfold boolIndex
        rw [if_neg (by rw [hmask, hcl]; omega)]
      rw [if_pos h2]
      by_cases h3 : 0 < (polymerMask positions.length bonds).countP id
      · simp only [exbind_ok, if_pos h3, e1, e2, e3, exbind_err, expure_eq]
        exact iff_of_true rfl ⟨h1, Or.inr h3⟩
      · simp only [exbind_ok, if_neg h3]
        exact iff_of_false (by simp [expure_eq, Except.isOk, Except.toBool])
          (fun hc => by rcases hc.2 with h | h
                        · exact h h2
                        · exact h3 h)
    · rw [if_neg h2]
      simp only [exbind_err]
      exact iff_of_true rfl ⟨h1, Or.inl h2⟩

/-- Witness for the amended C5: three monomers, one bond, per-monomer
colors — the scene is built without error and the right-hand side of the
equivalence is false. -/
theorem claim_C5_witness :
    (∀ bd ∈ [((0 : ℕ), (1 : ℕ))],
      bd.1 < ([((0 : ℚ), 0, 0), (1, 0, 0), (2, 0, 0)] : List Vec3).length ∧
      bd.2 < ([((0 : ℚ), 0, 0), (1, 0, 0), (2, 0, 0)] : List Vec3).length) ∧
    ([(1 : ℚ), 1, 1].length = ([((0 : ℚ), 0, 0), (1, 0, 0), (2, 0, 0)] : List Vec3).length) ∧
    (((fresnelScene (fun c => c) [((0 : ℚ), 0, 0), (1, 0, 0), (2, 0, 0)] [(0, 1)]
        [[1, 0, 0], [0, 1, 0], [0, 0, 1]] [1, 1, 1]).isOk = false)
      ↔ (([[(1 : ℚ), 0, 0], [0, 1, 0], [0, 0, 1]] : List (List ℚ)).length
            ≠ ([((0 : ℚ), 0, 0), (1, 0, 0), (2, 0, 0)] : List Vec3).length ∧
         (([[(1 : ℚ), 0, 0], [0, 1, 0], [0, 0, 1]] : List (List ℚ)).length
            ≠ ([((0 : ℕ), (1 : ℕ))] : List (ℕ × ℕ)).length ∨
          0 < (polymerMask ([((0 : ℚ), 0, 0), (1, 0, 0), (2, 0, 0)] : List Vec3).length
                [(0, 1)]).countP id))) :=
  ⟨by decide, rfl,
    claim_C5_amended (fun c => c) [((0 : ℚ), 0, 0), (1, 0, 0), (2, 0, 0)] [(0, 1)]
      [[1, 0, 0], [0, 1, 0], [0, 0, 1]] [1, 1, 1] (by decide) rfl⟩

/-- C5 counterexample: three monomers, one bond, colors with exactly one
row — the row count matches the bond count, yet the constructor errors,
because monomer 2 is unbound and the per-bond color array cannot be
indexed with the particle-length boolean mask. -/
theorem claim_C5_counterexample :
    ([[(1 : ℚ), 0, 0]] : List (List ℚ)).length = ([((0 : ℕ), (1 : ℕ))] : List (ℕ × ℕ)).length ∧
    fresnelScene (fun c => c) [((0 : ℚ), 0, 0), (1, 0, 0), (2, 0, 0)] [(0, 1)]
        [[(1 : ℚ), 0, 0]] [1, 1, 1]
      = .error "IndexError: boolean index did not match indexed array" :=
  ⟨rfl, rfl⟩

/-- Modelled from the spec: the binned voxel histogram — the n×n×n array of
per-bin point counts, flattened in the code's (z, y, x) C order. -/
def specHistogram (L : ℚ) (n : ℕ) (positions : List Vec3) : List ℚ :=
  (List.range (n ^ 3)).map (fun m =>
    (positions.countP (fun p =>
      inBinB L n (m / n ^ 2) p.2.2 && inBinB L n (m / n % n) p.2.1 &&
        inBinB L n (m % n) p.1) : ℚ))

lemma decomp_recompose (n m : ℕ) :
    m / n ^ 2 * n ^ 2 + m / n % n * n + m % n = m := by
  have h3 : m / n / n = m / n ^ 2 := by
    rw [Nat.div_div_eq_div_mul, pow_two]
  calc m / n ^ 2 * n ^ 2 + m / n % n * n + m % n
      = (m / n % n + n * (m / n / n)) * n + m % n := by rw [h3]; ring
    _ = m / n * n + m % n := by rw [Nat.mod_add_div]
    _ = n * (m / n) + m % n := by ring
    _ = m := Nat.div_add_mod m n

lemma counts_eq_specHistogram {L : ℚ} {n : ℕ} (hL : 0 < L) (hn : 0 < n)
    (positions : List Vec3) (hdom : ∀ p ∈ positions, inBox L p) :
    bincount (n ^ 3) ((positions.map (flatDig L n)).map Int.toNat)
      = specHistogram L n positions := by
  obtain ⟨-, hlen, hentry⟩ := counts_spec hL hn positions hdom
  apply List.ext_getElem
  · rw [hlen]
    simp [specHistogram]
  · intro m hm1 hm2
    have hmcube : m < n ^ 3 := by rwa [hlen] at hm1
    have hi : m / n ^ 2 < n := by
      rw [Nat.div_lt_iff_lt_mul (by positivity)]
      calc m < n ^ 3 := hmcube
        _ = n * n ^ 2 := by ring
    have hj : m / n % n < n := Nat.mod_lt _ hn
    have hk : m % n < n := Nat.mod_lt _ hn
    have hgd := hentry (m / n ^ 2) (m / n % n) (m % n) hi hj hk
    rw [decomp_recompose n m] at hgd
    rw [List.getD_eq_getElem?_getD, List.getElem?_eq_getElem hm1, Option.getD_some] at hgd
    rw [hgd]
    simp only [specHistogram, List.getElem_map, List.getElem_range]

/-- C7: for every rasterize call with gaussian_width > 0 (and normalize at
its False default), the returned raster is exactly the stock Gaussian
filter — called with periodic boundary mode "wrap" and standard deviation
gaussian_width/resolution — applied to the binned voxel histogram divided
by its maximum value.  The statement holds for every behavior `gfilter`
of the external scipy routine. -/
theorem claim_C7 (gfilter : ℚ → String → ℕ → List ℚ → List ℚ)
    (positions : List Vec3) (box_size resolution length_unit gaussian_width : ℚ)
    (hL : 0 < box_size) (hn : 0 < nVoxels box_size resolution length_unit)
    (hdom : ∀ p ∈ positions, inBox box_size p)
    (hgw : 0 < gaussian_width) :
    rasterize gfilter positions box_size resolution length_unit gaussian_width false
      = .ok ⟨nVoxels box_size resolution length_unit,
          gfilter (gaussian_width / resolution) "wrap"
            (nVoxels box_size resolution length_unit)
            ((specHistogram box_size (nVoxels box_size resolution length_unit) positions).map
              (fun c => c / npMax
                (specHistogram box_size (nVoxels box_size resolution length_unit) positions))),
          true⟩ := by
  obtain ⟨hany, hlen, -⟩ :=
    counts_spec hL hn positions hdom (n := nVoxels box_size resolution length_unit)
  have hck := counts_eq_specHistogram hL hn positions hdom
    (n := nVoxels box_size resolution length_unit)
  unfold rasterize
  simp only [hany, Bool.false_eq_true, if_false, hlen, if_true, if_pos hgw, hck]
  rw [if_pos (by simp [specHistogram])]

/-- Witness for C7 at a concrete input: one point, box_size 2, resolution
50, length_unit 50, gaussian_width 250, with the identity standing in for
the scipy filter. -/
theorem claim_C7_witness :
    (0 : ℚ) < 2 ∧ 0 < nVoxels 2 50 50 ∧ (0 : ℚ) < 250 ∧
    rasterize (fun _ _ _ d => d) [(((-1 : ℚ)/2, (-1 : ℚ)/2, (1 : ℚ)/2) : Vec3)] 2 50 50 250 false
      = .ok ⟨nVoxels 2 50 50,
          (specHistogram 2 (nVoxels 2 50 50)
              [(((-1 : ℚ)/2, (-1 : ℚ)/2, (1 : ℚ)/2) : Vec3)]).map
            (fun c => c / npMax (specHistogram 2 (nVoxels 2 50 50)
              [(((-1 : ℚ)/2, (-1 : ℚ)/2, (1 : ℚ)/2) : Vec3)])),
          true⟩ := by
  have hnv : nVoxels 2 50 50 = 2 := by
    norm_num [nVoxels, intTrunc]
    rfl
  have hdom : ∀ p ∈ [(((-1 : ℚ)/2, (-1 : ℚ)/2, (1 : ℚ)/2) : Vec3)], inBox 2 p := by
    intro p hp
    rw [List.mem_singleton] at hp
    subst hp
    norm_num [inBox]
  exact ⟨by norm_num, by rw [hnv]; norm_num, by norm_num,
    claim_C7 (fun _ _ _ d => d) _ 2 50 50 250 (by norm_num) (by rw [hnv]; norm_num)
      hdom (by norm_num)⟩

/-- The heap of numpy array buffers: arrays are referenced by index into
the list; freshly created arrays are appended at the end.  The heap makes
the source's writes explicit, so that "caller arrays are not mutated" is a
statement about which indices a call writes. -/
abbrev Heap : Type := List (List ℚ)

/-- An in-place write (`a[...] = ...`, `a /= ...`) to buffer `r`. -/
def hwrite (h : Heap) (r : ℕ) (a : List ℚ) : Heap := h.set r a

/-- Read buffer `r`. -/
def hread (h : Heap) (r : ℕ) : List ℚ := h.getD r []

/-- Decode a flat buffer as an Nx3 row-major array of points. -/
def toTriples : List ℚ → List Vec3
  | x :: y :: z :: rest => (x, y, z) :: toTriples rest
  | _ => []

/-- Decode a flat buffer as an Mx2 row-major array of index pairs. -/
def toPairs : List ℚ → List (ℕ × ℕ)
  | a :: b :: rest => ((⌊a⌋).toNat, (⌊b⌋).toNat) :: toPairs rest
  | _ => []

/-- Decode a flat buffer as rows of `w` entries. -/
def toRows (w : ℕ) (l : List ℚ) : List (List ℚ) :=
  (List.range (l.length / w)).map (fun i => (l.drop (i * w)).take w)

/-- Model of `rasterize` over the heap: reads the caller's positions buffer,
allocates the bincount buffer (its reshape is a view on the same buffer),
allocates the gaussian branch's divided histogram and filter output, and
performs the normalize step's division in place on the result buffer.
Returns the final heap and the result reference (none when the call
raises). -/
def heapRasterize (gfilter : ℚ → String → ℕ → List ℚ → List ℚ) (h : Heap)
    (posRef : ℕ) (box_size resolution length_unit gaussian_width : ℚ)
    (normalize : Bool) : Heap × Option ℕ :=
  let positions := toTriples (hread h posRef)
  let n := nVoxels box_size resolution length_unit
  let ds := positions.map (flatDig box_size n)
  if ds.any (fun d => decide (d < 0)) then (h, none)
  else
    let counts := bincount (n ^ 3) (ds.map Int.toNat)
    let h1 := h ++ [counts]
    if counts.length = n ^ 3 then
      if 0 < gaussian_width then
        let tmp := counts.map (fun c => c / npMax counts)
        let h2 := h1 ++ [tmp]
        let h3 := h2 ++ [gfilter (gaussian_width / resolution) "wrap" n tmp]
        let fref := h.length + 2
        if normalize then
          let v := hread h3 fref
          (hwrite h3 fref (v.map (fun c => c / npMax v)), some fref)
        else (h3, some fref)
      else
        if normalize then (h1, none)
        else (h1, some h.length)
    else (h1, none)

/-- Model of `voxels_to_pixels_RGB` over the heap: reads the caller's raster buffer
(of cube size n), allocates the projected 2D array, the RGBA image, and
the RGB slice; it writes into no pre-existing buffer. -/
def heapVoxels (cmap : ℚ → Rgba) (h : Heap) (rref n : ℕ)
    (vmin vmax : Option ℚ) (mode : String) (axis : ℕ) : Heap × Option ℕ :=
  let r : Raster := ⟨n, hread h rref, true⟩
  if mode = "max" ∨ mode = "sum" then
    if 3 ≤ axis then (h, none)
    else
      let flat2D := (project (if mode = "max" then npMax else npSum) axis r).flatten
      let h1 := h ++ [flat2D]
      let vmn := vmin.getD (npMin flat2D)
      let vmx := vmax.getD (npMax flat2D)
      let rgba := flat2D.flatMap (fun v =>
        let c := cmap (mplNormalize vmn vmx v)
        [c.1, c.2.1, c.2.2.1, c.2.2.2])
      let h2 := h1 ++ [rgba]
      let rgb := (toRows 4 rgba).flatMap (fun row => row.take 3)
      let h3 := h2 ++ [rgb]
      (h3, some (h.length + 2))
  else (h, none)

/-- Model of `Fresnel._fresnel` over the heap: reads the caller's positions, bonds,
colors and radii buffers; allocates the cylinder geometry buffers and
writes the marshalled data into them in place; allocates the
sRGB-corrected color array and the boolean polymer mask (then clears the
bonded entries in place); and, when unbound monomers exist, allocates and
fills the sphere geometry buffers.  The caller's four arrays are never
written. -/
def heapFresnel (lin : List ℚ → List ℚ) (h : Heap)
    (posRef bondsRef colorsRef radiiRef colorCols : ℕ) : Heap × Option ℕ :=
  let positions := toTriples (hread h posRef)
  let bonds := toPairs (hread h bondsRef)
  let colors := toRows colorCols (hread h colorsRef)
  let radii := hread h radiiRef
  let M := bonds.length
  let h3 := h ++ [List.replicate (M * 2 * 3) 0, List.replicate M 0,
    List.replicate (M * 2 * colorCols) 0]
  let gpts := h.length
  let grad := h.length + 1
  let gcol := h.length + 2
  if bonds.any (fun bd =>
      decide (positions.length ≤ bd.1) || decide (positions.length ≤ bd.2)) then (h3, none)
  else if bonds.any (fun bd =>
      decide (radii.length ≤ bd.1) || decide (radii.length ≤ bd.2)) then (h3, none)
  else
    let h4 := hwrite h3 gpts (bonds.flatMap (fun bd =>
      let p := positions.getD bd.1 ((0, 0, 0) : Vec3)
      let q := positions.getD bd.2 ((0, 0, 0) : Vec3)
      [p.1, p.2.1, p.2.2, q.1, q.2.1, q.2.2]))
    let h5 := hwrite h4 grad (bonds.map (fun bd =>
      min (radii.getD bd.1 0) (radii.getD bd.2 0)))
    let corrected := colors.map lin
    let h6 := h5 ++ [corrected.flatten]
    if corrected.length = positions.length ∨ corrected.length = bonds.length then
      let ccf := if corrected.length = positions.length then
          bonds.flatMap (fun bd => corrected.getD bd.1 [] ++ corrected.getD bd.2 [])
        else corrected.flatMap (fun c => c ++ c)
      let h7 := hwrite h6 gcol ccf
      let mask := polymerMask positions.length bonds
      let h8 := h7 ++ [List.replicate positions.length (1 : ℚ)]
      let mref := h.length + 4
      let h9 := hwrite h8 mref (mask.map (fun b => if b then (1 : ℚ) else 0))
      if 0 < mask.countP id then
        match boolIndex mask radii, boolIndex mask positions, boolIndex mask corrected with
        | .ok sr, .ok sp, .ok sc =>
          let h12 := h9 ++ [List.replicate (mask.countP id) 0,
            List.replicate (mask.countP id * 3) 0,
            List.replicate (mask.countP id * colorCols) 0]
          let h13 := hwrite h12 (h.length + 5) sr
          let h14 := hwrite h13 (h.length + 6) (sp.flatMap (fun p => [p.1, p.2.1, p.2.2]))
          let h15 := hwrite h14 (h.length + 7) sc.flatten
          (h15, some gpts)
        | _, _, _ => (h9, none)
      else (h9, some gpts)
    else (h6, none)

lemma hpres_write {h : Heap} {r : ℕ} {a : List ℚ} {j : ℕ} (hj : j ≠ r) :
    (hwrite h r a)[j]? = h[j]? := List.getElem?_set_ne (fun e => hj e.symm)

lemma hstep_nil {h : Heap} {j : ℕ} : h[j]? = h[j]? ∧ h.length ≤ h.length :=
  ⟨rfl, le_refl _⟩

lemma hstep_append {h h' : Heap} {j : ℕ} (hj : j < h.length) (l : List (List ℚ))
    (hP : h'[j]? = h[j]? ∧ h.length ≤ h'.length) :
    (h' ++ l)[j]? = h[j]? ∧ h.length ≤ (h' ++ l).length := by
  constructor
  · rw [List.getElem?_append_left (lt_of_lt_of_le hj hP.2), hP.1]
  · rw [List.length_append]
    omega
lemma hstep_write {h h' : Heap} {j r : ℕ} {a : List ℚ} (hj : j < h.length)
    (hr : h.length ≤ r) (hP : h'[j]? = h[j]? ∧ h.length ≤ h'.length) :
    (hwrite h' r a)[j]? = h[j]? ∧ h.length ≤ (hwrite h' r a).length := by
  constructor
  · rw [hpres_write (by omega), hP.1]
  · rw [hwrite, List.length_set]
    exact hP.2

/-- C8: the Fresnel scene constructor, rasterize and voxels_to_pixels_RGB
leave every pre-existing array buffer — in particular the caller-supplied
positions, bonds, colors, radii and raster arrays — unchanged: each call
only reads existing buffers and writes freshly allocated ones. -/
theorem claim_C8 (gfilter : ℚ → String → ℕ → List ℚ → List ℚ) (cmap : ℚ → Rgba)
    (lin : List ℚ → List ℚ) (h : Heap) (posRef : ℕ)
    (box_size resolution length_unit gaussian_width : ℚ) (normalize : Bool)
    (rref n : ℕ) (vmin vmax : Option ℚ) (mode : String) (axis : ℕ)
    (bondsRef colorsRef radiiRef colorCols : ℕ)
    (j : ℕ) (hj : j < h.length) :
    (heapRasterize gfilter h posRef box_size resolution length_unit gaussian_width
        normalize).1[j]? = h[j]? ∧
    (heapVoxels cmap h rref n vmin vmax mode axis).1[j]? = h[j]? ∧
    (heapFresnel lin h posRef bondsRef colorsRef radiiRef colorCols).1[j]? = h[j]? := by
  refine ⟨?_, ?_, ?_⟩
  · unfold heapRasterize
    dsimp only
    split
    · rfl
    · split
      · split
        · split
          · exact (hstep_write hj (by omega)
              (hstep_append hj _ (hstep_append hj _ (hstep_append hj _ hstep_nil)))).1
          · exact (hstep_append hj _ (hstep_append hj _ (hstep_append hj _ hstep_nil))).1
        · split
          · exact (hstep_append hj _ hstep_nil).1
          · exact (hstep_append hj _ hstep_nil).1
      · exact (hstep_append hj _ hstep_nil).1
  · unfold heapVoxels
    dsimp only
    split
    · split
      · rfl
      · exact (hstep_append hj _ (hstep_append hj _ (hstep_append hj _ hstep_nil))).1
    · rfl
  · unfold heapFresnel
    dsimp only
    split
    · exact (hstep_append hj _ hstep_nil).1
    · split
      · exact (hstep_append hj _ hstep_nil).1
      · split
        · split
          · split
            · exact (hstep_write hj (by omega) (hstep_write hj (by omega)
                (hstep_write hj (by omega) (hstep_append hj _
                  (hstep_write hj (by omega) (hstep_append hj _
                    (hstep_write hj (by omega) (hstep_append hj _
                      (hstep_write hj (by omega) (hstep_write hj (by omega)
                        (hstep_append hj _ hstep_nil))))))))))).1
            · exact (hstep_write hj (by omega) (hstep_append hj _
                (hstep_write hj (by omega) (hstep_append hj _
                  (hstep_write hj (by omega) (hstep_write hj (by omega)
                    (hstep_append hj _ hstep_nil))))))).1
          · exact (hstep_write hj (by omega) (hstep_append hj _
              (hstep_write hj (by omega) (hstep_append hj _
                (hstep_write hj (by omega) (hstep_write hj (by omega)
                  (hstep_append hj _ hstep_nil))))))).1
        · exact (hstep_append hj _ (hstep_write hj (by omega) (hstep_write hj (by omega)
            (hstep_append hj _ hstep_nil)))).1

/-- Witness for C8 at a concrete heap with one pre-existing buffer. -/
theorem claim_C8_witness :
    0 < ([[(1 : ℚ)]] : Heap).length ∧
    ((heapRasterize (fun _ _ _ d => d) [[(1 : ℚ)]] 0 2 50 50 0 false).1[0]?
        = ([[(1 : ℚ)]] : Heap)[0]? ∧
     (heapVoxels (fun v => ((v, v, v, 1) : Rgba)) [[(1 : ℚ)]] 0 1 none none "max" 2).1[0]?
        = ([[(1 : ℚ)]] : Heap)[0]? ∧
     (heapFresnel (fun c => c) [[(1 : ℚ)]] 0 0 0 0 3).1[0]?
        = ([[(1 : ℚ)]] : Heap)[0]?) :=
  ⟨by norm_num,
    claim_C8 (fun _ _ _ d => d) (fun v => ((v, v, v, 1) : Rgba)) (fun c => c)
      [[(1 : ℚ)]] 0 2 50 50 0 false 0 1 none none "max" 2 0 0 0 3 0 (by norm_num)⟩

end Polykit
